import Mathlib

/-!
Formal model of the SidekickOS firmware streaming core
(src/firmware/main/main.c and src/audio_example/audio_ulaw.cpp).

Conventions of the shallow embedding:
* C byte buffers are `List Nat` (each element a byte value).
* C strings are `List Char` (the NUL-terminated text as a char list).
* C `float` values are modelled as exact rationals.
* Machine integers are `Int`/`Nat` with explicit wrapping (`% 2^w`)
  where the C code can overflow; `int16_t` wrapping uses `toInt16`.
* External collaborators (the BLE stack's send primitive, the camera,
  the I2S microphone) are oracles passed in as parameters; each call
  the firmware makes to them shows up as an explicit event or as an
  `Option` result.
-/

/-! ## Fragmenter: send_image_chunks (main.c lines 567-648) -/

/-- The 16-bit big-endian byte pair `[(n >> 8) & 0xFF, n & 0xFF]`. -/
def be16 (n : Nat) : List Nat :=
  [n / 2 ^ 8 % 256, n % 256]

/-- The 32-bit little-endian byte quadruple `[(n >> 0) & 0xFF, ..., (n >> 24) & 0xFF]`. -/
def le32 (n : Nat) : List Nat :=
  [n % 256, n / 2 ^ 8 % 256, n / 2 ^ 16 % 256, n / 2 ^ 24 % 256]

/-- Observable interactions of `send_image_chunks` with the BLE layer:
a read of the global `ble_device_connected` flag, or one
`esp_ble_gatts_send_indicate` call carrying a packet, with the outcome
reported by the stack. -/
inductive BleEvent where
  | readConnected (value : Bool)
  | sendAttempt (packet : List Nat) (ok : Bool)
deriving DecidableEq

/-- Payload of data chunk `i`: `chunk_size = min(max_chunk_size, image_len - offset)`
bytes copied from `image_data[offset]`, `offset = i * max_chunk_size`. -/
def chunk_payload (mcs : Nat) (data : List Nat) (i : Nat) : List Nat :=
  (data.drop (i * mcs)).take mcs

/-- Data-chunk packet: `[0x02][chunk_idx_hi][chunk_idx_lo][data...]` (main.c 611-615). -/
def data_packet (mcs : Nat) (data : List Nat) (i : Nat) : List Nat :=
  2 :: (be16 i ++ chunk_payload mcs data i)

/-- Start packet: 7-byte header
`[0x01][chunks_hi][chunks_lo][size_b0][size_b1][size_b2][size_b3]` (main.c 581-588). -/
def start_packet (total_chunks total_len : Nat) : List Nat :=
  1 :: (be16 total_chunks ++ le32 total_len)

/-- End packet: `[0x03][chunks_hi][chunks_lo]` (main.c 636-639). -/
def end_packet (total_chunks : Nat) : List Nat :=
  3 :: be16 total_chunks

/-- total_chunks = (image_len + max_chunk_size - 1) / max_chunk_size (main.c 575). -/
def total_chunks_of (mcs len : Nat) : Nat :=
  (len + mcs - 1) / mcs

/-- The chunk size used by the firmware: 510 = MTU 517 minus 7 header bytes (main.c 571). -/
def max_chunk_size : Nat := 510

/-- The data-chunk loop of `send_image_chunks` (main.c 599-633), at chunk index `i`
with `n` chunks remaining.  `sendOk k` is the stack's verdict on the k-th send
attempt of the whole transfer (the start packet is attempt 0, chunk `i` is
attempt `i + 1`); `allocOk i` tells whether `heap_caps_malloc` succeeds for
chunk `i`.  Returns the events of the loop and whether the loop aborted the
function (an allocation failure returns from `send_image_chunks`); a failed
send is only logged and the loop continues. -/
def send_chunks_loop (mcs : Nat) (data : List Nat) (sendOk allocOk : Nat → Bool) :
    Nat → Nat → List BleEvent × Bool
  | _, 0 => ([], false)
  | i, n + 1 =>
    if allocOk i then
      let rest := send_chunks_loop mcs data sendOk allocOk (i + 1) n
      (BleEvent.sendAttempt (data_packet mcs data i) (sendOk (i + 1)) :: rest.1, rest.2)
    else ([], true)

/-- Model of `send_image_chunks` (main.c 567-648) as the list of its BLE
interactions.  The global `ble_device_connected` is read exactly once, in the
entry guard (main.c 569); `connected` is the value that read returns.  A
failed start-packet send returns early (main.c 591-594); the end packet is
sent only if the chunk loop did not abort on an allocation failure. -/
def send_image_chunks (mcs : Nat) (connected : Bool) (data : List Nat)
    (sendOk allocOk : Nat → Bool) : List BleEvent :=
  BleEvent.readConnected connected ::
  (if connected = true ∧ data ≠ [] then
    let cc := total_chunks_of mcs data.length
    BleEvent.sendAttempt (start_packet cc data.length) (sendOk 0) ::
    (if sendOk 0 then
      let res := send_chunks_loop mcs data sendOk allocOk 0 cc
      res.1 ++ (if res.2 then [] else
        [BleEvent.sendAttempt (end_packet cc) (sendOk (cc + 1))])
    else [])
  else [])

/-- Number of reads of the `ble_device_connected` flag in a trace. -/
def count_reads : List BleEvent → Nat
  | [] => 0
  | BleEvent.readConnected _ :: rest => count_reads rest + 1
  | _ :: rest => count_reads rest

/-- Number of packet-send attempts in a trace. -/
def count_sends : List BleEvent → Nat
  | [] => 0
  | BleEvent.sendAttempt _ _ :: rest => count_sends rest + 1
  | _ :: rest => count_sends rest

theorem count_sends_append (l₁ l₂ : List BleEvent) :
    count_sends (l₁ ++ l₂) = count_sends l₁ + count_sends l₂ := by
  induction l₁ with
  | nil => simp [count_sends]
  | cons e rest ih =>
    cases e
    all_goals simp [count_sends, ih]
    all_goals omega

theorem count_reads_append (l₁ l₂ : List BleEvent) :
    count_reads (l₁ ++ l₂) = count_reads l₁ + count_reads l₂ := by
  induction l₁ with
  | nil => simp [count_reads]
  | cons e rest ih =>
    cases e
    all_goals simp [count_reads, ih]
    all_goals omega

/-- When every allocation succeeds, the chunk loop attempts every chunk in
ascending index order, regardless of per-send failures, and does not abort. -/
theorem send_chunks_loop_alloc_ok (mcs : Nat) (data : List Nat) (sendOk : Nat → Bool) :
    ∀ n i, send_chunks_loop mcs data sendOk (fun _ => true) i n =
      ((List.range n).map
        (fun j => BleEvent.sendAttempt (data_packet mcs data (i + j)) (sendOk (i + j + 1))),
       false) := by
  intro n
  induction n with
  | zero => intro i; simp [send_chunks_loop]
  | succ n ih =>
    intro i
    have hmap : (List.range (n + 1)).map
        (fun j => BleEvent.sendAttempt (data_packet mcs data (i + j)) (sendOk (i + j + 1)))
        = BleEvent.sendAttempt (data_packet mcs data i) (sendOk (i + 1)) ::
          (List.range n).map
            (fun j => BleEvent.sendAttempt (data_packet mcs data (i + 1 + j))
              (sendOk (i + 1 + j + 1))) := by
      rw [List.range_succ_eq_map, List.map_cons, List.map_map]
      simp only [Nat.add_zero, List.cons.injEq]
      refine ⟨by trivial, ?_⟩
      apply List.map_congr_left
      intro j _
      simp only [Function.comp_apply]
      have h1 : i + (j + 1) = i + 1 + j := by omega
      rw [h1]
    rw [hmap]
    simp only [send_chunks_loop, ih (i + 1)]
    rw [if_pos trivial]

/-- Unfolding of `send_image_chunks` when it is entered connected with a
non-empty blob, the start packet send succeeds and every chunk-buffer
allocation succeeds: the trace is the single flag read, the start packet,
every data chunk in ascending order, and the end packet; each send attempt
happens exactly once whatever verdicts `sendOk` returns on them. -/
theorem send_image_chunks_eq_of_start_ok (mcs : Nat) (data : List Nat)
    (sendOk : Nat → Bool) (hd : data ≠ []) (h0 : sendOk 0 = true) :
    send_image_chunks mcs true data sendOk (fun _ => true) =
      BleEvent.readConnected true ::
      BleEvent.sendAttempt (start_packet (total_chunks_of mcs data.length) data.length) true ::
      (((List.range (total_chunks_of mcs data.length)).map
        (fun i => BleEvent.sendAttempt (data_packet mcs data i) (sendOk (i + 1)))) ++
       [BleEvent.sendAttempt (end_packet (total_chunks_of mcs data.length))
         (sendOk (total_chunks_of mcs data.length + 1))]) := by
  have hcc := send_chunks_loop_alloc_ok mcs data sendOk (total_chunks_of mcs data.length) 0
  simp only [send_image_chunks]
  rw [if_pos (And.intro (by trivial) hd), h0]
  simp only [hcc, if_true, if_false, Bool.false_eq_true, Nat.zero_add]

theorem chunk_payload_length (mcs : Nat) (data : List Nat) (i : Nat) :
    (chunk_payload mcs data i).length = min mcs (data.length - i * mcs) := by
  simp [chunk_payload]

/-- Every chunk before the last one carries exactly `mcs` payload bytes. -/
theorem chunk_payload_full (mcs : Nat) (data : List Nat) (hm : 0 < mcs) (i : Nat)
    (hi : i + 1 < total_chunks_of mcs data.length) :
    (chunk_payload mcs data i).length = mcs := by
  rw [chunk_payload_length]
  simp only [total_chunks_of] at hi
  have h1 : i + 2 ≤ (data.length + mcs - 1) / mcs := by omega
  have h2 : (i + 2) * mcs ≤ data.length + mcs - 1 := (Nat.le_div_iff_mul_le hm).mp h1
  rw [Nat.add_mul] at h2
  omega

/-- The last chunk carries the remaining `len - (chunk_count - 1) * mcs` bytes. -/
theorem chunk_payload_last (mcs : Nat) (data : List Nat) (hm : 0 < mcs) (hd : data ≠ []) :
    (chunk_payload mcs data (total_chunks_of mcs data.length - 1)).length
      = data.length - (total_chunks_of mcs data.length - 1) * mcs := by
  unfold total_chunks_of
  rw [chunk_payload_length]
  have hlen : 1 ≤ data.length := by
    have := List.length_pos.mpr hd
    omega
  set cc := (data.length + mcs - 1) / mcs with hcc
  have hcc1 : 1 ≤ cc := by
    rw [hcc]
    apply (Nat.le_div_iff_mul_le hm).mpr
    omega
  have hlt : data.length + mcs - 1 < (cc + 1) * mcs := by
    apply (Nat.div_lt_iff_lt_mul hm).mp
    omega
  rw [Nat.add_mul, Nat.one_mul] at hlt
  have hub : data.length ≤ cc * mcs := by omega
  have hsub : (cc - 1) * mcs = cc * mcs - mcs := by
    rw [Nat.sub_mul, Nat.one_mul]
  omega

/-- Concatenating the chunk payloads of a blob in index order gives back the blob. -/
theorem chunk_payload_join (mcs : Nat) (hm : 0 < mcs) :
    ∀ (cc : Nat) (data : List Nat), cc = (data.length + mcs - 1) / mcs →
      ((List.range cc).map (chunk_payload mcs data)).flatten = data := by
  intro cc
  induction cc with
  | zero =>
    intro data h
    have hlen : data.length = 0 := by
      by_contra hne
      have h1 : 1 ≤ (data.length + mcs - 1) / mcs := by
        apply (Nat.le_div_iff_mul_le hm).mpr
        omega
      omega
    simp [List.eq_nil_of_length_eq_zero hlen]
  | succ cc ih =>
    intro data h
    have hlen : 1 ≤ data.length := by
      by_contra hne
      have h0 : data.length = 0 := by omega
      rw [h0] at h
      have h1 : (0 + mcs - 1) / mcs = 0 := Nat.div_eq_of_lt (by omega)
      omega
    have hrec : cc = ((data.drop mcs).length + mcs - 1) / mcs := by
      rw [List.length_drop]
      rcases le_or_lt mcs data.length with hle | hlt
      · have h1 : data.length - mcs + mcs - 1 = data.length - 1 := by omega
        rw [h1]
        have h2 : data.length + mcs - 1 = data.length - 1 + mcs := by omega
        rw [h2, Nat.add_div_right _ hm] at h
        omega
      · have h3 : data.length - mcs = 0 := by omega
        rw [h3]
        have h4 : (0 + mcs - 1) / mcs = 0 := Nat.div_eq_of_lt (by omega)
        rw [h4]
        have h5 : (data.length + mcs - 1) / mcs < 2 := by
          apply Nat.div_lt_of_lt_mul
          omega
        omega
    have hstep : ∀ j, chunk_payload mcs data (j + 1) = chunk_payload mcs (data.drop mcs) j := by
      intro j
      simp only [chunk_payload, List.drop_drop]
      have h1 : (j + 1) * mcs = mcs + j * mcs := by ring
      rw [h1]
    rw [List.range_succ_eq_map, List.map_cons, List.map_map]
    have hmap2 : (List.range cc).map (chunk_payload mcs data ∘ Nat.succ)
        = (List.range cc).map (chunk_payload mcs (data.drop mcs)) := by
      apply List.map_congr_left
      intro j _
      exact hstep j
    rw [hmap2, List.flatten_cons, ih (data.drop mcs) hrec]
    have h0 : chunk_payload mcs data 0 = data.take mcs := by
      simp [chunk_payload]
    rw [h0, List.take_append_drop]

theorem count_reads_map_sendAttempt (f : Nat → List Nat) (g : Nat → Bool) (l : List Nat) :
    count_reads (l.map fun i => BleEvent.sendAttempt (f i) (g i)) = 0 := by
  induction l with
  | nil => simp [count_reads]
  | cons a rest ih => simp [count_reads, ih]

theorem count_sends_map_sendAttempt (f : Nat → List Nat) (g : Nat → Bool) (l : List Nat) :
    count_sends (l.map fun i => BleEvent.sendAttempt (f i) (g i)) = l.length := by
  induction l with
  | nil => simp [count_sends]
  | cons a rest ih => simp [count_sends, ih]

/-- C1: for every non-empty blob and every positive chunk payload size,
`send_image_chunks` (entered connected, with the BLE sends succeeding) emits
exactly one start packet `[0x01][chunk_count as 16-bit BE][total_length as
32-bit LE]`, then `chunk_count = ceil(len/mcs)` data packets
`[0x02][chunk_index as 16-bit BE][payload]` in strictly ascending index
order whose payloads are `mcs` bytes each except the last one of
`len - (chunk_count - 1) * mcs` bytes, then one end packet
`[0x03][chunk_count as 16-bit BE]`; the payloads concatenate back to the blob. -/
theorem C1_send_blob_framing (mcs : Nat) (data : List Nat) (hm : 0 < mcs) (hd : data ≠ []) :
    send_image_chunks mcs true data (fun _ => true) (fun _ => true) =
      BleEvent.readConnected true ::
      BleEvent.sendAttempt (start_packet (total_chunks_of mcs data.length) data.length) true ::
      (((List.range (total_chunks_of mcs data.length)).map
        (fun i => BleEvent.sendAttempt (data_packet mcs data i) true)) ++
       [BleEvent.sendAttempt (end_packet (total_chunks_of mcs data.length)) true])
    ∧ total_chunks_of mcs data.length = (data.length + mcs - 1) / mcs
    ∧ start_packet (total_chunks_of mcs data.length) data.length
        = 1 :: (be16 (total_chunks_of mcs data.length) ++ le32 data.length)
    ∧ (∀ i, i + 1 < total_chunks_of mcs data.length → (chunk_payload mcs data i).length = mcs)
    ∧ (chunk_payload mcs data (total_chunks_of mcs data.length - 1)).length
        = data.length - (total_chunks_of mcs data.length - 1) * mcs
    ∧ end_packet (total_chunks_of mcs data.length) = 3 :: be16 (total_chunks_of mcs data.length)
    ∧ ((List.range (total_chunks_of mcs data.length)).map (chunk_payload mcs data)).flatten = data := by
  refine ⟨?_, rfl, rfl, ?_, ?_, rfl, ?_⟩
  · exact send_image_chunks_eq_of_start_ok mcs data (fun _ => true) hd rfl
  · intro i hi
    exact chunk_payload_full mcs data hm i hi
  · exact chunk_payload_last mcs data hm hd
  · exact chunk_payload_join mcs hm _ data rfl

/-- Witness for C1 at `mcs = 2` and blob `[10, 20, 30, 40, 50]`
(3 chunks of payload lengths 2, 2, 1). -/
theorem C1_witness :
    0 < 2 ∧ ([10, 20, 30, 40, 50] : List Nat) ≠ [] ∧
    (send_image_chunks 2 true [10, 20, 30, 40, 50] (fun _ => true) (fun _ => true) =
      BleEvent.readConnected true ::
      BleEvent.sendAttempt (start_packet (total_chunks_of 2 (5 : Nat)) 5) true ::
      (((List.range (total_chunks_of 2 (5 : Nat))).map
        (fun i => BleEvent.sendAttempt (data_packet 2 [10, 20, 30, 40, 50] i) true)) ++
       [BleEvent.sendAttempt (end_packet (total_chunks_of 2 (5 : Nat))) true])
    ∧ total_chunks_of 2 (5 : Nat) = (5 + 2 - 1) / 2
    ∧ start_packet (total_chunks_of 2 (5 : Nat)) 5
        = 1 :: (be16 (total_chunks_of 2 (5 : Nat)) ++ le32 5)
    ∧ (∀ i, i + 1 < total_chunks_of 2 (5 : Nat) →
        (chunk_payload 2 [10, 20, 30, 40, 50] i).length = 2)
    ∧ (chunk_payload 2 [10, 20, 30, 40, 50] (total_chunks_of 2 (5 : Nat) - 1)).length
        = 5 - (total_chunks_of 2 (5 : Nat) - 1) * 2
    ∧ end_packet (total_chunks_of 2 (5 : Nat)) = 3 :: be16 (total_chunks_of 2 (5 : Nat))
    ∧ ((List.range (total_chunks_of 2 (5 : Nat))).map
        (chunk_payload 2 [10, 20, 30, 40, 50])).flatten = [10, 20, 30, 40, 50]) :=
  ⟨by decide, by decide, C1_send_blob_framing 2 [10, 20, 30, 40, 50] (by decide) (by decide)⟩

/-- C2 (amended): `send_image_chunks` reads the `ble_device_connected` flag
exactly once, in its entry guard; once a transfer is entered connected and its
start packet is accepted, every remaining packet of the transfer (all
`chunk_count` data chunks and the end packet) is still attempted, whatever the
flag does afterwards and whatever verdicts the stack returns — a mid-transfer
disconnect does not skip the remaining sends, it merely makes the attempts
fail, and those failures are logged and swallowed without error propagation. -/
theorem C2_connected_checked_once_per_transfer (mcs : Nat) (data : List Nat)
    (sendOk : Nat → Bool) (hd : data ≠ []) (h0 : sendOk 0 = true) :
    count_reads (send_image_chunks mcs true data sendOk (fun _ => true)) = 1 ∧
    count_sends (send_image_chunks mcs true data sendOk (fun _ => true)) =
      total_chunks_of mcs data.length + 2 := by
  rw [send_image_chunks_eq_of_start_ok mcs data sendOk hd h0]
  constructor
  · simp [count_reads, count_reads_append, count_reads_map_sendAttempt]
  · simp [count_sends, count_sends_append, count_sends_map_sendAttempt]
    try omega

/-- Counterexample to C2 as stated: for the transfer of `[10, 20, 30]` with
chunk payload size 2 the firmware performs four packet-send attempts but only
one read of the connected flag, so it cannot be re-checking the flag before
every individual packet send. -/
theorem C2_counterexample :
    count_sends (send_image_chunks 2 true [10, 20, 30] (fun _ => true) (fun _ => true)) = 4 ∧
    count_reads (send_image_chunks 2 true [10, 20, 30] (fun _ => true) (fun _ => true)) = 1 ∧
    ¬ (count_sends (send_image_chunks 2 true [10, 20, 30] (fun _ => true) (fun _ => true)) ≤
       count_reads (send_image_chunks 2 true [10, 20, 30] (fun _ => true) (fun _ => true))) := by
  decide

/-- Witness for the amended C2: a transfer whose start packet succeeds and
whose every later send fails (as after a mid-transfer disconnect) still shows
one flag read and `chunk_count + 2` send attempts. -/
theorem C2_witness :
    ([5, 6] : List Nat) ≠ [] ∧ (fun n => decide (n = 0)) 0 = true ∧
    (count_reads (send_image_chunks 1 true [5, 6] (fun n => decide (n = 0)) (fun _ => true)) = 1 ∧
     count_sends (send_image_chunks 1 true [5, 6] (fun n => decide (n = 0)) (fun _ => true)) =
       total_chunks_of 1 (2 : Nat) + 2) := by
  refine ⟨by decide, by decide, ?_⟩
  have h := C2_connected_checked_once_per_transfer 1 [5, 6]
    (fun n => decide (n = 0)) (by decide) (by decide)
  simpa using h

/-- C4 (amended): within one transfer whose start packet is accepted and whose
chunk-buffer allocations succeed, every data-chunk send and the end-packet
send is attempted exactly once, in order, regardless of which of those sends
fail — a failed data or end send is logged and the transfer continues with the
next packet, with no retry and no abort.  (A failed start-packet send, by
contrast, aborts the transfer: see the counterexample.) -/
theorem C4_best_effort_continues_after_failed_send (mcs : Nat) (data : List Nat)
    (sendOk : Nat → Bool) (hd : data ≠ []) (h0 : sendOk 0 = true) :
    send_image_chunks mcs true data sendOk (fun _ => true) =
      BleEvent.readConnected true ::
      BleEvent.sendAttempt (start_packet (total_chunks_of mcs data.length) data.length) true ::
      (((List.range (total_chunks_of mcs data.length)).map
        (fun i => BleEvent.sendAttempt (data_packet mcs data i) (sendOk (i + 1)))) ++
       [BleEvent.sendAttempt (end_packet (total_chunks_of mcs data.length))
         (sendOk (total_chunks_of mcs data.length + 1))]) :=
  send_image_chunks_eq_of_start_ok mcs data sendOk hd h0

/-- Counterexample to C4 as stated: when the start-packet send fails, the
transfer is aborted — only one send attempt happens, not the three
(start, one data chunk, end) that per-packet best effort would give. -/
theorem C4_counterexample :
    send_image_chunks 510 true [1, 2] (fun _ => false) (fun _ => true) =
      [BleEvent.readConnected true, BleEvent.sendAttempt (start_packet 1 2) false] ∧
    count_sends (send_image_chunks 510 true [1, 2] (fun _ => false) (fun _ => true)) = 1 ∧
    total_chunks_of 510 2 + 2 = 3 ∧ (1 : Nat) ≠ 3 := by
  decide

/-- Witness for the amended C4: a transfer in which every data-chunk send and
the end send fail still attempts each of them exactly once. -/
theorem C4_witness :
    ([1, 2, 3] : List Nat) ≠ [] ∧ (fun n => decide (n = 0)) 0 = true ∧
    send_image_chunks 2 true [1, 2, 3] (fun n => decide (n = 0)) (fun _ => true) =
      BleEvent.readConnected true ::
      BleEvent.sendAttempt (start_packet (total_chunks_of 2 (3 : Nat)) 3) true ::
      (((List.range (total_chunks_of 2 (3 : Nat))).map
        (fun i => BleEvent.sendAttempt (data_packet 2 [1, 2, 3] i) (decide (i + 1 = 0)))) ++
       [BleEvent.sendAttempt (end_packet (total_chunks_of 2 (3 : Nat)))
         (decide (total_chunks_of 2 (3 : Nat) + 1 = 0))]) :=
  ⟨by decide, by decide,
    C4_best_effort_continues_after_failed_send 2 [1, 2, 3] (fun n => decide (n = 0))
      (by decide) (by decide)⟩

/-! ## Control command interpreter: handle_control_command (main.c 472-565) -/

/-- Boolean test that the first list is a prefix of the second; models
`strncmp(command, lit, strlen(lit)) == 0` with the literal as first argument. -/
def chars_starts_with : List Char → List Char → Bool
  | [], _ => true
  | _ :: _, [] => false
  | c :: cs, d :: ds => c = d && chars_starts_with cs ds

/-- Leading-whitespace skipping of C `atoi`/`atof` (isspace characters). -/
def skip_ws : List Char → List Char
  | [] => []
  | c :: rest =>
    if c = ' ' ∨ c = '\t' ∨ c = '\n' ∨ c = '\r' ∨ c.toNat = 11 ∨ c.toNat = 12 then
      skip_ws rest
    else c :: rest

/-- Consume a maximal run of decimal digits, accumulating their value;
returns the value and the unconsumed rest. -/
def parse_digits : List Char → Nat → Nat × List Char
  | [], acc => (acc, [])
  | c :: rest, acc =>
    if c.isDigit then parse_digits rest (acc * 10 + (c.toNat - 48)) else (acc, c :: rest)

/-- Consume a maximal run of fraction digits, returning numerator, the power
of ten that scales it, and the unconsumed rest. -/
def parse_frac_digits : List Char → Nat → Nat → Nat × Nat × List Char
  | [], num, den => (num, den, [])
  | c :: rest, num, den =>
    if c.isDigit then parse_frac_digits rest (num * 10 + (c.toNat - 48)) (den * 10)
    else (num, den, c :: rest)

/-- Model of C `atoi`: optional whitespace, optional sign, leading digits;
parsing stops at the first non-digit and an input with no leading digits
yields 0.  (Overflow of the C `int` is not modelled; the firmware only
compares the result against small bounds.) -/
def atoi_chars (l : List Char) : Int :=
  match skip_ws l with
  | '-' :: rest => -((parse_digits rest 0).1 : Int)
  | '+' :: rest => ((parse_digits rest 0).1 : Int)
  | l1 => ((parse_digits l1 0).1 : Int)

/-- Result of scanning a C float literal: sign, integer part, fraction
numerator and scale, decimal exponent. -/
structure FloatParse where
  sign : Int
  ipart : Nat
  fracNum : Nat
  fracDen : Nat
  exp10 : Int
deriving DecidableEq

/-- Scanning phase of C `atof`: optional whitespace, optional sign, digits,
optional `.` and fraction digits, optional `e`/`E` exponent.  An input with
no leading number scans as zero, which is what C `atof` returns on it. -/
def atof_parse (l : List Char) : FloatParse :=
  let l1 := skip_ws l
  let sl : Int × List Char :=
    match l1 with
    | '-' :: r => (-1, r)
    | '+' :: r => (1, r)
    | _ => (1, l1)
  let ip := parse_digits sl.2 0
  let fr : Nat × Nat × List Char :=
    match ip.2 with
    | '.' :: r => parse_frac_digits r 0 1
    | _ => (0, 1, ip.2)
  let ev : Int :=
    match fr.2.2 with
    | c :: r =>
      if c = 'e' ∨ c = 'E' then
        match r with
        | '-' :: r2 => -((parse_digits r2 0).1 : Int)
        | '+' :: r2 => ((parse_digits r2 0).1 : Int)
        | _ => ((parse_digits r 0).1 : Int)
      else 0
    | [] => 0
  ⟨sl.1, ip.1, fr.1, fr.2.1, ev⟩

/-- Model of C `atof` as an exact rational. -/
def atof_chars (l : List Char) : ℚ :=
  let p := atof_parse l
  (p.sign : ℚ) * ((p.ipart : ℚ) + (p.fracNum : ℚ) / (p.fracDen : ℚ)) * (10 : ℚ) ^ p.exp10

/-- The 14 resolution identifiers reachable from the SIZE command
(esp_camera's framesize_t, restricted to the values main.c 515-529 uses). -/
inductive framesize_t where
  | FRAMESIZE_96X96
  | FRAMESIZE_QQVGA
  | FRAMESIZE_QCIF
  | FRAMESIZE_HQVGA
  | FRAMESIZE_240X240
  | FRAMESIZE_QVGA
  | FRAMESIZE_CIF
  | FRAMESIZE_HVGA
  | FRAMESIZE_VGA
  | FRAMESIZE_SVGA
  | FRAMESIZE_XGA
  | FRAMESIZE_HD
  | FRAMESIZE_SXGA
  | FRAMESIZE_UXGA
deriving DecidableEq

/-- The switch on the SIZE value (main.c 515-532): indices 0..13 map to the
14 resolutions in ascending order, everything else hits the default case,
which warns and returns. -/
def frame_size_of_size_value (n : Int) : Option framesize_t :=
  if n = 0 then some framesize_t.FRAMESIZE_96X96
  else if n = 1 then some framesize_t.FRAMESIZE_QQVGA
  else if n = 2 then some framesize_t.FRAMESIZE_QCIF
  else if n = 3 then some framesize_t.FRAMESIZE_HQVGA
  else if n = 4 then some framesize_t.FRAMESIZE_240X240
  else if n = 5 then some framesize_t.FRAMESIZE_QVGA
  else if n = 6 then some framesize_t.FRAMESIZE_CIF
  else if n = 7 then some framesize_t.FRAMESIZE_HVGA
  else if n = 8 then some framesize_t.FRAMESIZE_VGA
  else if n = 9 then some framesize_t.FRAMESIZE_SVGA
  else if n = 10 then some framesize_t.FRAMESIZE_XGA
  else if n = 11 then some framesize_t.FRAMESIZE_HD
  else if n = 12 then some framesize_t.FRAMESIZE_SXGA
  else if n = 13 then some framesize_t.FRAMESIZE_UXGA
  else none

/-- The shared streaming configuration: the global variables of main.c 74-80
that `handle_control_command` mutates and the producer loops read. -/
structure Config where
  frame_interval : ℚ
  image_quality : Int
  current_frame_size : framesize_t
  frame_streaming_enabled : Bool
  audio_streaming_enabled : Bool
  capture_image_requested : Bool
deriving DecidableEq

/-- Initial values of the globals (main.c 74-80): `frame_interval = 0.033f`,
`image_quality = 25`, `current_frame_size = FRAMESIZE_QVGA`, all flags false. -/
def init_config : Config :=
  { frame_interval := 33 / 1000
    image_quality := 25
    current_frame_size := framesize_t.FRAMESIZE_QVGA
    frame_streaming_enabled := false
    audio_streaming_enabled := false
    capture_image_requested := false }

/-- Model of `handle_control_command` (main.c 472-565).  `sensor_present`
models `esp_camera_sensor_get() != NULL` and `set_framesize_ok` the success
of `s->set_framesize` in the SIZE branch; those externals do not affect the
other branches' configuration updates.  An unrecognized command falls off the
if/else chain silently (there is no final else in the source). -/
def handle_control_command (sensor_present set_framesize_ok : Bool) (command : List Char)
    (c : Config) : Config :=
  if command = "CAPTURE".data then { c with capture_image_requested := true }
  else if command = "START_FRAMES".data then { c with frame_streaming_enabled := true }
  else if command = "STOP_FRAMES".data then { c with frame_streaming_enabled := false }
  else if command = "START_AUDIO".data then { c with audio_streaming_enabled := true }
  else if command = "STOP_AUDIO".data then { c with audio_streaming_enabled := false }
  else if chars_starts_with "INTERVAL:".data command then
    { c with frame_interval := max (1 / 10) (min 60 (atof_chars (command.drop 9))) }
  else if chars_starts_with "QUALITY:".data command then
    { c with image_quality :=
        if atoi_chars (command.drop 8) < 4 then 4
        else if atoi_chars (command.drop 8) > 63 then 63
        else atoi_chars (command.drop 8) }
  else if chars_starts_with "SIZE:".data command then
    match frame_size_of_size_value (atoi_chars (command.drop 5)) with
    | none => c
    | some fs =>
      if sensor_present && set_framesize_ok then { c with current_frame_size := fs } else c
  else c

/-- A run of the command handler from boot: each step carries the two sensor
oracles and the command text. -/
def run_commands (steps : List (Bool × Bool × List Char)) : Config :=
  steps.foldl (fun c step => handle_control_command step.1 step.2.1 step.2.2 c) init_config

/-- Size of the local command buffer `char command[256]` in the
ESP_GATTS_WRITE_EVT handler (main.c 394). -/
def command_buf_size : Nat := 256

/-- The MTU the firmware requests on connect, `esp_ble_gatt_set_local_mtu(517)`
(main.c 418); an ATT write can declare up to `local_mtu - 3` value bytes. -/
def local_mtu : Nat := 517

/-- The buffer indices written by the write-event handler for a declared
write length `len`: `memcpy(command, param->write.value, len)` writes
indices `0 .. len - 1`, and `command[len] = 0` writes index `len`
(main.c 395-396); the code performs no bound check against `len`. -/
def write_evt_byte_writes (len : Nat) : List Nat :=
  List.range len ++ [len]

set_option maxRecDepth 4000 in
/-- C3: the write-event handler trusts the declared write length with no
bound check, so a control write whose declared length is 300 (well under the
`MTU 517 - 3` write ceiling) makes the handler write buffer indices at and
beyond 256, outside the 256-byte `command` buffer; writes stay in bounds only
for declared lengths up to 255, and even length 256 already puts the NUL
terminator one past the end. -/
theorem C3_control_write_overflows_buffer :
    300 ≤ local_mtu - 3 ∧
    ¬ (∀ i ∈ write_evt_byte_writes 300, i < command_buf_size) ∧
    (∀ i ∈ write_evt_byte_writes 255, i < command_buf_size) ∧
    ¬ (∀ i ∈ write_evt_byte_writes 256, i < command_buf_size) := by
  decide

/-- Unfolding of the INTERVAL: branch of the command handler. -/
theorem handle_interval_eq (sp sfo : Bool) (command : List Char) (c : Config)
    (h1 : command ≠ "CAPTURE".data) (h2 : command ≠ "START_FRAMES".data)
    (h3 : command ≠ "STOP_FRAMES".data) (h4 : command ≠ "START_AUDIO".data)
    (h5 : command ≠ "STOP_AUDIO".data)
    (h6 : chars_starts_with "INTERVAL:".data command = true) :
    handle_control_command sp sfo command c =
      { c with frame_interval := max (1 / 10) (min 60 (atof_chars (command.drop 9))) } := by
  unfold handle_control_command
  rw [if_neg h1, if_neg h2, if_neg h3, if_neg h4, if_neg h5, if_pos h6]

/-- Counterexample to C5 as stated: the input `INTERVAL:abc` is a malformed
variant of a recognized prefix (its suffix is not a number, so it scans as
zero), yet the handler does not leave the configuration unchanged — it clamps
the zero and stores `frame_interval = 0.1`, overwriting the previous 0.033. -/
theorem C5_counterexample :
    chars_starts_with "INTERVAL:".data "INTERVAL:abc".data = true ∧
    atof_parse ("INTERVAL:abc".data.drop 9) = ⟨1, 0, 0, 1, 0⟩ ∧
    (handle_control_command true true "INTERVAL:abc".data init_config).frame_interval = 1 / 10 ∧
    init_config.frame_interval = 33 / 1000 ∧
    handle_control_command true true "INTERVAL:abc".data init_config ≠ init_config := by
  have hval : atof_chars ("INTERVAL:abc".data.drop 9) = 0 := by
    unfold atof_chars
    rw [show atof_parse ("INTERVAL:abc".data.drop 9) = ⟨1, 0, 0, 1, 0⟩ from by decide]
    norm_num
  have hfi : (handle_control_command true true "INTERVAL:abc".data init_config).frame_interval
      = 1 / 10 := by
    rw [handle_interval_eq true true _ init_config (by decide) (by decide) (by decide)
      (by decide) (by decide) (by decide)]
    simp only [hval]
    rw [min_eq_right (by norm_num : (0 : ℚ) ≤ 60), max_eq_left (by norm_num : (0 : ℚ) ≤ 1 / 10)]
  refine ⟨by decide, by decide, hfi, rfl, ?_⟩
  intro heq
  have h2 := congrArg Config.frame_interval heq
  rw [hfi] at h2
  have h3 : init_config.frame_interval = 33 / 1000 := rfl
  rw [h3] at h2
  norm_num at h2

/-- C5 (amended): an input that matches none of the exact commands (CAPTURE,
START_FRAMES, STOP_FRAMES, START_AUDIO, STOP_AUDIO, STATUS) and none of the
recognized prefixes (INTERVAL:, QUALITY:, SIZE:) makes the handler return
with every configuration field unchanged.  (Inputs that do start with a
recognized prefix are parsed leniently by atof/atoi — a malformed suffix is
coerced to 0 and clamped, so they can still change the configuration; see the
counterexample.) -/
theorem C5_unmatched_command_leaves_config_unchanged (sp sfo : Bool)
    (command : List Char) (c : Config)
    (h1 : command ≠ "CAPTURE".data) (h2 : command ≠ "START_FRAMES".data)
    (h3 : command ≠ "STOP_FRAMES".data) (h4 : command ≠ "START_AUDIO".data)
    (h5 : command ≠ "STOP_AUDIO".data) (_h6 : command ≠ "STATUS".data)
    (h7 : chars_starts_with "INTERVAL:".data command = false)
    (h8 : chars_starts_with "QUALITY:".data command = false)
    (h9 : chars_starts_with "SIZE:".data command = false) :
    handle_control_command sp sfo command c = c := by
  unfold handle_control_command
  rw [if_neg h1, if_neg h2, if_neg h3, if_neg h4, if_neg h5,
    if_neg (by simp [h7]), if_neg (by simp [h8]), if_neg (by simp [h9])]

/-- Witness for the amended C5 at the unrecognized input `HELLO`. -/
theorem C5_witness :
    ("HELLO".data ≠ "CAPTURE".data) ∧
    handle_control_command true true "HELLO".data init_config = init_config :=
  ⟨by decide,
    C5_unmatched_command_leaves_config_unchanged true true "HELLO".data init_config
      (by decide) (by decide) (by decide) (by decide) (by decide) (by decide)
      (by decide) (by decide) (by decide)⟩

/-- The configuration invariant of the spec's data model, as it actually holds
on the code: `image_quality` is always within its clamp range `[4, 63]`, and
`frame_interval` is either still its boot value 0.033 (which is *below* the
clamp range) or within `[0.1, 60]`. -/
def config_inv (c : Config) : Prop :=
  (4 ≤ c.image_quality ∧ c.image_quality ≤ 63) ∧
  (c.frame_interval = 33 / 1000 ∨ (1 / 10 ≤ c.frame_interval ∧ c.frame_interval ≤ 60))

theorem handle_control_command_preserves_inv (sp sfo : Bool) (command : List Char)
    (c : Config) (h : config_inv c) :
    config_inv (handle_control_command sp sfo command c) := by
  unfold config_inv at h ⊢
  unfold handle_control_command
  split
  · exact h
  split
  · exact h
  split
  · exact h
  split
  · exact h
  split
  · exact h
  split
  · exact ⟨h.1, Or.inr ⟨le_max_left _ _, max_le (by norm_num) (min_le_left _ _)⟩⟩
  split
  · refine ⟨⟨?_, ?_⟩, h.2⟩
    · dsimp only
      split
      · omega
      split
      · omega
      · omega
    · dsimp only
      split
      · omega
      split
      · omega
      · omega
  split
  · split
    · exact h
    · split
      · exact h
      · exact h
  · exact h

theorem run_commands_foldl_inv (steps : List (Bool × Bool × List Char)) :
    ∀ c : Config, config_inv c →
      config_inv (steps.foldl
        (fun c step => handle_control_command step.1 step.2.1 step.2.2 c) c) := by
  induction steps with
  | nil => intro c hc; exact hc
  | cons s rest ih =>
    intro c hc
    exact ih _ (handle_control_command_preserves_inv s.1 s.2.1 s.2.2 c hc)

/-- C6 (amended): at every reachable state of the configuration — from boot
through any sequence of command-handler invocations — `image_quality` is in
its clamp range `[4, 63]`, and `frame_interval` is either still the boot
value 0.033 (no INTERVAL command processed yet), which lies below the clamp
range, or within `[0.1, 60]`.  Once an INTERVAL command runs, the interval
stays in `[0.1, 60]` until and unless another INTERVAL command runs, and the
quality clamp holds unconditionally. -/
theorem C6_reachable_configs_clamped (steps : List (Bool × Bool × List Char)) :
    (4 ≤ (run_commands steps).image_quality ∧ (run_commands steps).image_quality ≤ 63) ∧
    ((run_commands steps).frame_interval = 33 / 1000 ∨
      (1 / 10 ≤ (run_commands steps).frame_interval ∧
       (run_commands steps).frame_interval ≤ 60)) := by
  have h := run_commands_foldl_inv steps init_config
    ⟨⟨by norm_num [init_config], by norm_num [init_config]⟩, Or.inl rfl⟩
  exact h

/-- Counterexample to C6 as stated: the initial state (reachable with zero
commands) has `frame_interval = 0.033`, which is outside the clamp range
`[0.1, 60]`. -/
theorem C6_counterexample :
    run_commands [] = init_config ∧
    init_config.frame_interval = 33 / 1000 ∧
    ¬ (1 / 10 ≤ init_config.frame_interval) := by
  refine ⟨rfl, rfl, ?_⟩
  show ¬ ((1 : ℚ) / 10 ≤ 33 / 1000)
  norm_num

/-! ## Audio companding: linear_to_mulaw (main.c 91-109, audio_ulaw.cpp 9-23)
and send_audio_data (main.c 976-1059) -/

/-- Wrap an integer to the `int16_t` range (two's complement), the conversion
the C code performs when a wider value is stored into an `int16_t`. -/
def toInt16 (x : Int) : Int :=
  (x + 32768) % 65536 - 32768

/-- The exponent search loop of `linear_to_mulaw` (main.c 100-103): starting
at exponent 7 with mask 0x4000, decrement while the masked bit of the biased
value is clear and the exponent is positive.  `u` is the 16-bit two's
complement bit pattern of the biased value. -/
def mulaw_exponent (u : Nat) : Nat → Nat → Nat
  | 0, _ => 0
  | e + 1, mask => if u &&& mask ≠ 0 then e + 1 else mulaw_exponent u e (mask >>> 1)

/-- Model of `linear_to_mulaw` (main.c 91-109; identical to `linear_to_ulaw`
in audio_ulaw.cpp 9-23).  The negation `pcm_val = -pcm_val` is an `int16_t`
store, so `-(-32768)` wraps back to `-32768` (two's complement, as the
target's gcc does); the arithmetic right shift of a negative value is modelled
as floor division and `& 0x0F` as the nonnegative remainder, matching the
two's complement bit operations of the promoted `int`. -/
def linear_to_mulaw (pcm_val : Int) : Nat :=
  let sign : Nat := if pcm_val < 0 then 0x80 else 0
  let v1 : Int := if pcm_val < 0 then toInt16 (-pcm_val) else pcm_val
  let v2 : Int := if v1 > 32635 then 32635 else v1
  let v3 : Int := toInt16 (v2 + 0x84)
  let u : Nat := (v3 % 65536).toNat
  let e : Nat := mulaw_exponent u 7 0x4000
  let shift : Nat := if e = 0 then 4 else e + 3
  let mantissa : Nat := ((v3 / 2 ^ shift) % 16).toNat
  255 ^^^ (sign ||| (e <<< 4) ||| mantissa)

set_option maxRecDepth 8000 in
/-- C7: evaluation of `linear_to_mulaw` around the clip ceiling 32635.  For
every 16-bit sample of magnitude above the ceiling other than -32768 the
encoder saturates (same byte as the sign-preserved +-32635: 0x80 for positive,
0x00 for negative), but at the single input -32768 the `int16_t` negation
wraps to -32768, the clip test `pcm_val > CLIP` is bypassed, and the encoder
emits 0x77 instead of the saturated 0x00 — clipping wraps instead of
saturating there, contradicting the spec. -/
theorem C7_mulaw_clip_wraps_at_int16_min :
    (-32768 : Int).natAbs > 32635 ∧
    linear_to_mulaw (-32768) = 0x77 ∧
    linear_to_mulaw (-32635) = 0x00 ∧
    linear_to_mulaw (-32768) ≠ linear_to_mulaw (-32635) ∧
    (∀ k ∈ List.range 132, linear_to_mulaw (-32636 - (k : Int)) = 0x00) ∧
    (∀ k ∈ List.range 132, linear_to_mulaw (32636 + (k : Int)) = 0x80) ∧
    linear_to_mulaw 32635 = 0x80 := by
  decide

/-- rms_level of one audio window (main.c 1009-1013): integer square root of
the mean of squared samples.  The `int32_t` overflow of `rms_sum` and the
`int16_t` narrowing of the `sqrt` result (both possible in the C only for
very loud windows, and undefined or lossy there) are not modelled: sums are
exact. -/
def rms_level (samples : List Int) : Int :=
  Int.sqrt ((samples.foldl (fun s x => s + x * x) 0) / (samples.length : Int))

/-- The adaptive-threshold update (main.c 1016-1019): a window louder than
twice the current threshold drags the threshold to a quarter of the rms. -/
def gate_threshold (adaptive_threshold rms : Int) : Int :=
  if rms > adaptive_threshold * 2 then rms / 4 else adaptive_threshold

/-- One step of the encode loop (main.c 1029-1040): high-pass filter
`filtered = sample - ((prev_sample * 15) >> 4)` with the raw sample becoming
the new `prev_sample`, then mu-law encode the filtered value. -/
def mulaw_encode_step (prev_sample sample : Int) : Int × Nat :=
  (sample, linear_to_mulaw (toInt16 (sample - (prev_sample * 15) / 16)))

/-- The whole encode loop over a window, threading `prev_sample` and
collecting one output byte per input sample. -/
def mulaw_encode_window (prev_sample : Int) (samples : List Int) : Int × List Nat :=
  samples.foldl
    (fun st x => ((mulaw_encode_step st.1 x).1, st.2 ++ [(mulaw_encode_step st.1 x).2]))
    (prev_sample, [])

/-- Model of `send_audio_data` (main.c 976-1059) acting on the process state
it touches: the static `adaptive_threshold` and filter `prev_sample`, with
the window read from I2S given as `samples` (an empty list models a read
that returned no bytes).  Returns the new threshold, the new `prev_sample`,
and the mu-law bytes handed to the BLE send, or `none` when the window is
skipped. -/
def send_audio_data (connected audio_init : Bool) (adaptive_threshold prev_sample : Int)
    (samples : List Int) : Int × Int × Option (List Nat) :=
  if connected = false ∨ audio_init = false ∨ samples = [] then
    (adaptive_threshold, prev_sample, none)
  else if rms_level samples < gate_threshold adaptive_threshold (rms_level samples) then
    (gate_threshold adaptive_threshold (rms_level samples), prev_sample, none)
  else
    (gate_threshold adaptive_threshold (rms_level samples),
     (mulaw_encode_window prev_sample samples).1,
     some (mulaw_encode_window prev_sample samples).2)

theorem rms_level_nonneg (samples : List Int) : 0 ≤ rms_level samples :=
  Int.sqrt_nonneg _

/-- A window whose rms exceeds twice the threshold is always encoded and
sent, and the threshold becomes `rms / 4`. -/
theorem send_audio_data_loud (T prev : Int) (samples : List Int)
    (hs : samples ≠ []) (hloud : rms_level samples > T * 2) :
    send_audio_data true true T prev samples =
      (rms_level samples / 4, (mulaw_encode_window prev samples).1,
       some (mulaw_encode_window prev samples).2) := by
  have hgate : gate_threshold T (rms_level samples) = rms_level samples / 4 := by
    unfold gate_threshold
    rw [if_pos hloud]
  unfold send_audio_data
  rw [if_neg (by simp [hs]), hgate,
    if_neg (not_lt.mpr (Int.ediv_le_self 4 (rms_level_nonneg samples)))]

theorem rms_level_150 : rms_level [150] = 150 := by
  unfold rms_level
  simp only [List.foldl_cons, List.foldl_nil, List.length_cons, List.length_nil]
  have h1 : ((0 : Int) + 150 * 150) / ((0 : Nat) + 1 : Nat) = 150 * 150 := by norm_num
  rw [h1, Int.sqrt_eq]
  norm_num

/-- C9: the adaptive gate never suppresses a loud window — whenever a
window's rms exceeds twice the pre-state threshold, the threshold is set to
`rms / 4`, which is at most the rms, so the silence check passes and the
window is encoded and sent; moreover when additionally `rms < 4 * T` the
update strictly lowers the threshold, so the threshold is not monotonically
non-decreasing over windows (concretely, from the initial threshold 50 a
window of rms 150 lowers it to 37). -/
theorem C9_adaptive_gate_never_suppresses_loud (T prev : Int) (samples : List Int)
    (_hT : 0 ≤ T) (hs : samples ≠ []) (hloud : rms_level samples > 2 * T) :
    (send_audio_data true true T prev samples).1 = rms_level samples / 4 ∧
    (send_audio_data true true T prev samples).2.2 =
      some (mulaw_encode_window prev samples).2 ∧
    (rms_level samples < 4 * T → (send_audio_data true true T prev samples).1 < T) ∧
    (send_audio_data true true 50 0 [150]).1 = 37 ∧ ¬ (50 ≤ (37 : Int)) := by
  have hloud' : rms_level samples > T * 2 := by rw [mul_comm]; exact hloud
  rw [send_audio_data_loud T prev samples hs hloud']
  refine ⟨rfl, rfl, ?_, ?_, by norm_num⟩
  · intro hlt
    apply Int.ediv_lt_of_lt_mul (by norm_num)
    rw [mul_comm]
    exact hlt
  · rw [send_audio_data_loud 50 0 [150] (by decide) (by rw [rms_level_150]; norm_num),
      rms_level_150]
    decide

/-- Witness for C9 at threshold 50, filter state 0 and the one-sample window
`[150]` (rms 150, between twice and four times the threshold). -/
theorem C9_witness :
    0 ≤ (50 : Int) ∧ ([150] : List Int) ≠ [] ∧ rms_level [150] > 2 * 50 ∧
    ((send_audio_data true true 50 0 [150]).1 = rms_level [150] / 4 ∧
     (send_audio_data true true 50 0 [150]).2.2 =
       some (mulaw_encode_window 0 [150]).2 ∧
     (rms_level [150] < 4 * 50 → (send_audio_data true true 50 0 [150]).1 < 50) ∧
     (send_audio_data true true 50 0 [150]).1 = 37 ∧ ¬ (50 ≤ (37 : Int))) :=
  ⟨by norm_num, by decide, by rw [rms_level_150]; norm_num,
    C9_adaptive_gate_never_suppresses_loud 50 0 [150] (by norm_num) (by decide)
      (by rw [rms_level_150]; norm_num)⟩

/-! ## Video producer loop: one iteration of streaming_task (main.c 742-816) -/

/-- The observable camera/send actions of one `streaming_task` iteration:
the periodic frame path failing its capture or capturing-and-sending a frame,
and the one-shot capture path failing its capture or capturing-and-sending. -/
inductive StreamEvent where
  | frameCaptureFailed
  | frameSent (data : List Nat)
  | singleCaptureFailed
  | singleSent (data : List Nat)
deriving DecidableEq

/-- The mutable state the loop body touches: the cadence anchor
`last_frame_time`, the two counters, and the shared one-shot flag
`capture_image_requested` (main.c 747-749, 77). -/
structure StreamState where
  last_frame_time : Nat
  frame_count : Nat
  failed_frames : Nat
  capture_image_requested : Bool
deriving DecidableEq

/-- The per-iteration inputs: the tick-count read at the top of the loop, the
values of the shared flags during this iteration, the frame interval in ticks
(`pdMS_TO_TICKS((int)(frame_interval * 1000))`), and the camera's answers for
the periodic and the one-shot `esp_camera_fb_get` calls (`none` = NULL). -/
structure StepInput where
  current_time : Nat
  connected : Bool
  frame_streaming_enabled : Bool
  interval_ticks : Nat
  frame_capture : Option (List Nat)
  single_capture : Option (List Nat)
deriving DecidableEq

/-- The one-shot block at the bottom of the loop body (main.c 793-811): if the
flag is up and the link is connected, the flag is cleared *before* the camera
is invoked; a NULL frame is only logged, a good frame is sent (the
`send_image_chunks` call is abstracted to the `singleSent` event). -/
def capture_request_block (s : StreamState) (inp : StepInput)
    (evs : List StreamEvent) : StreamState × List StreamEvent :=
  if s.capture_image_requested = true ∧ inp.connected = true then
    match inp.single_capture with
    | none => ({ s with capture_image_requested := false },
               evs ++ [StreamEvent.singleCaptureFailed])
    | some fb => ({ s with capture_image_requested := false },
                  evs ++ [StreamEvent.singleSent fb])
  else (s, evs)

/-- One iteration of the `streaming_task` while-loop body (main.c 751-815).
When streaming is enabled, connected, and a frame is due, a failed capture
increments `failed_frames`, sets `last_frame_time := current_time` and
`continue`s — skipping the one-shot block of this iteration (main.c 761-767);
a successful capture sends the frame (abstracted to `frameSent`), sets
`last_frame_time := current_time` and increments `frame_count`
(main.c 772-777).  In all cases the one-shot block then runs, except after
the `continue`. -/
def streaming_step (s : StreamState) (inp : StepInput) : StreamState × List StreamEvent :=
  if inp.frame_streaming_enabled = true ∧ inp.connected = true ∧
      inp.interval_ticks ≤ inp.current_time - s.last_frame_time then
    match inp.frame_capture with
    | none =>
      ({ s with failed_frames := s.failed_frames + 1, last_frame_time := inp.current_time },
       [StreamEvent.frameCaptureFailed])
    | some fb =>
      capture_request_block
        { s with last_frame_time := inp.current_time, frame_count := s.frame_count + 1 }
        inp [StreamEvent.frameSent fb]
  else capture_request_block s inp []

/-- A run of consecutive loop iterations, collecting all events. -/
def streaming_run (s : StreamState) : List StepInput → StreamState × List StreamEvent
  | [] => (s, [])
  | inp :: rest =>
    let r1 := streaming_step s inp
    let r2 := streaming_run r1.1 rest
    (r2.1, r1.2 ++ r2.2)

/-- Number of one-shot capture attempts (failed or sent) in an event list. -/
def count_single : List StreamEvent → Nat
  | [] => 0
  | StreamEvent.singleCaptureFailed :: rest => count_single rest + 1
  | StreamEvent.singleSent _ :: rest => count_single rest + 1
  | _ :: rest => count_single rest

theorem count_single_append (l₁ l₂ : List StreamEvent) :
    count_single (l₁ ++ l₂) = count_single l₁ + count_single l₂ := by
  induction l₁ with
  | nil => simp [count_single]
  | cons e rest ih =>
    cases e
    all_goals simp [count_single, ih]
    all_goals omega

/-- C8 (amended): in the video producer loop a failed frame capture does NOT
leave the cadence anchor unchanged — the code sets `last_frame_time` to the
attempt time exactly as a success does, increments the failure counter, emits
no frame, leaves `frame_count` and the one-shot flag alone, and skips the
one-shot block of that iteration before the short fixed backoff
(main.c 761-767; the spec's design notes, section 9, document this actual
anchor policy). -/
theorem C8_failed_capture_updates_anchor (s : StreamState) (inp : StepInput)
    (hen : inp.frame_streaming_enabled = true) (hconn : inp.connected = true)
    (hdue : inp.interval_ticks ≤ inp.current_time - s.last_frame_time)
    (hfail : inp.frame_capture = none) :
    streaming_step s inp =
      ({ s with failed_frames := s.failed_frames + 1, last_frame_time := inp.current_time },
       [StreamEvent.frameCaptureFailed]) := by
  unfold streaming_step
  rw [if_pos ⟨hen, hconn, hdue⟩, hfail]

/-- Counterexample to C8 as stated: from anchor 0, a due iteration at tick 100
whose capture fails moves the anchor to 100 — a failed attempt does update
the cadence anchor. -/
theorem C8_counterexample :
    (streaming_step ⟨0, 0, 0, false⟩ ⟨100, true, true, 50, none, none⟩).1.last_frame_time
      = 100 ∧
    (⟨0, 0, 0, false⟩ : StreamState).last_frame_time = 0 ∧ (100 : Nat) ≠ 0 := by
  decide

/-- Witness for the amended C8 at a concrete due-and-failing iteration. -/
theorem C8_witness :
    (⟨100, true, true, 50, none, none⟩ : StepInput).frame_streaming_enabled = true ∧
    (⟨100, true, true, 50, none, none⟩ : StepInput).connected = true ∧
    (⟨100, true, true, 50, none, none⟩ : StepInput).interval_ticks ≤
      (⟨100, true, true, 50, none, none⟩ : StepInput).current_time -
      (⟨0, 3, 4, false⟩ : StreamState).last_frame_time ∧
    (⟨100, true, true, 50, none, none⟩ : StepInput).frame_capture = none ∧
    streaming_step ⟨0, 3, 4, false⟩ ⟨100, true, true, 50, none, none⟩ =
      (⟨100, 3, 5, false⟩, [StreamEvent.frameCaptureFailed]) :=
  ⟨by decide, by decide, by decide, by decide,
    C8_failed_capture_updates_anchor ⟨0, 3, 4, false⟩ ⟨100, true, true, 50, none, none⟩
      (by decide) (by decide) (by decide) (by decide)⟩


/-- When the one-shot flag is up and the link is connected, the block clears
the flag and performs exactly one one-shot capture attempt (failed or sent). -/
theorem capture_request_block_served (s : StreamState) (inp : StepInput)
    (evs : List StreamEvent)
    (hflag : s.capture_image_requested = true) (hconn : inp.connected = true) :
    (capture_request_block s inp evs).1.capture_image_requested = false ∧
    count_single (capture_request_block s inp evs).2 = count_single evs + 1 := by
  unfold capture_request_block
  rw [if_pos ⟨hflag, hconn⟩]
  cases inp.single_capture
  all_goals simp [count_single, count_single_append]

/-- When the flag is down or the link is not connected, the block is a no-op. -/
theorem capture_request_block_not_served (s : StreamState) (inp : StepInput)
    (evs : List StreamEvent)
    (h : ¬ (s.capture_image_requested = true ∧ inp.connected = true)) :
    capture_request_block s inp evs = (s, evs) := by
  unfold capture_request_block
  rw [if_neg h]

theorem count_single_step (s : StreamState) (inp : StepInput) :
    count_single (streaming_step s inp).2 +
      (if (streaming_step s inp).1.capture_image_requested = true then 1 else 0) ≤
    (if s.capture_image_requested = true then 1 else 0) := by
  unfold streaming_step
  split
  · cases hcap : inp.frame_capture with
    | none => simp [count_single]
    | some fb =>
      dsimp only
      by_cases hcond : s.capture_image_requested = true ∧ inp.connected = true
      · have h := capture_request_block_served
          { s with last_frame_time := inp.current_time, frame_count := s.frame_count + 1 }
          inp [StreamEvent.frameSent fb] hcond.1 hcond.2
        rw [h.1, h.2]
        simp [count_single, hcond.1]
      · rw [capture_request_block_not_served
          { s with last_frame_time := inp.current_time, frame_count := s.frame_count + 1 }
          inp [StreamEvent.frameSent fb] hcond]
        simp [count_single]
  · by_cases hcond : s.capture_image_requested = true ∧ inp.connected = true
    · have h := capture_request_block_served s inp [] hcond.1 hcond.2
      rw [h.1, h.2]
      simp [count_single, hcond.1]
    · rw [capture_request_block_not_served s inp [] hcond]
      simp [count_single]

theorem streaming_run_single_bound (inps : List StepInput) :
    ∀ s : StreamState,
      count_single (streaming_run s inps).2 +
        (if (streaming_run s inps).1.capture_image_requested = true then 1 else 0) ≤
      (if s.capture_image_requested = true then 1 else 0) := by
  induction inps with
  | nil => intro s; simp [streaming_run, count_single]
  | cons inp rest ih =>
    intro s
    have h1 := count_single_step s inp
    have h2 := ih (streaming_step s inp).1
    simp only [streaming_run, count_single_append]
    omega

/-- C10 (amended): the one-shot CAPTURE request is served at most once and
survives disconnection: (a) when the flag is up, the link is connected, and
the periodic frame path does not short-circuit the iteration with a failed
due capture, the flag is cleared (before the camera runs) and exactly one
one-shot capture attempt happens, even if that attempt fails; (b) over any
run of iterations with no further CAPTURE command, at most one one-shot
attempt happens in total; (c) a disconnected iteration is a no-op: the flag
(and all state) is preserved and nothing is attempted.  (As stated the claim
also promised service on the *first* connected iteration; a failed periodic
capture's `continue` can postpone it — see the counterexample.) -/
theorem C10_capture_once_semantics :
    (∀ (s : StreamState) (inp : StepInput),
      s.capture_image_requested = true → inp.connected = true →
      ¬ (inp.frame_streaming_enabled = true ∧
         inp.interval_ticks ≤ inp.current_time - s.last_frame_time ∧
         inp.frame_capture = none) →
      (streaming_step s inp).1.capture_image_requested = false ∧
      count_single (streaming_step s inp).2 = 1) ∧
    (∀ (s : StreamState) (inps : List StepInput),
      count_single (streaming_run s inps).2 ≤
        (if s.capture_image_requested = true then 1 else 0)) ∧
    (∀ (s : StreamState) (inp : StepInput),
      inp.connected = false → streaming_step s inp = (s, [])) := by
  refine ⟨?_, ?_, ?_⟩
  · intro s inp hflag hconn hnot
    unfold streaming_step
    split
    · rename_i hper
      cases hcap : inp.frame_capture with
      | none => exact absurd ⟨hper.1, hper.2.2, hcap⟩ hnot
      | some fb =>
        dsimp only
        have h := capture_request_block_served
          { s with last_frame_time := inp.current_time, frame_count := s.frame_count + 1 }
          inp [StreamEvent.frameSent fb] hflag hconn
        refine ⟨h.1, ?_⟩
        rw [h.2]
        simp [count_single]
    · have h := capture_request_block_served s inp [] hflag hconn
      refine ⟨h.1, ?_⟩
      rw [h.2]
      simp [count_single]
  · intro s inps
    have h := streaming_run_single_bound inps s
    omega
  · intro s inp hconn
    unfold streaming_step
    rw [if_neg (by simp [hconn])]
    exact capture_request_block_not_served s inp [] (by simp [hconn])

/-- Counterexample to C10 as stated: with the one-shot flag up and the
connection up, an iteration whose due periodic capture fails short-circuits
with `continue`, so the one-shot request is NOT served on this first
connected iteration — the flag stays up and no one-shot attempt happens. -/
theorem C10_counterexample :
    (streaming_step ⟨0, 0, 0, true⟩
      ⟨100, true, true, 50, none, some [9]⟩).1.capture_image_requested = true ∧
    count_single (streaming_step ⟨0, 0, 0, true⟩
      ⟨100, true, true, 50, none, some [9]⟩).2 = 0 := by
  decide

/-- Witness for the amended C10: part (a) at an iteration with streaming
disabled and a failing one-shot capture, part (b) at a two-iteration run, and
part (c) at a disconnected iteration. -/
theorem C10_witness :
    ((streaming_step ⟨0, 0, 0, true⟩
        ⟨100, true, false, 50, none, none⟩).1.capture_image_requested = false ∧
     count_single (streaming_step ⟨0, 0, 0, true⟩
        ⟨100, true, false, 50, none, none⟩).2 = 1) ∧
    count_single (streaming_run ⟨5, 1, 2, true⟩
      [⟨6, false, true, 1, none, none⟩, ⟨7, true, false, 1, none, some [3]⟩]).2 ≤
      (if (⟨5, 1, 2, true⟩ : StreamState).capture_image_requested = true then 1 else 0) ∧
    streaming_step ⟨0, 0, 0, true⟩ ⟨9, false, true, 1, none, none⟩ = (⟨0, 0, 0, true⟩, []) :=
  ⟨C10_capture_once_semantics.1 ⟨0, 0, 0, true⟩ ⟨100, true, false, 50, none, none⟩
      (by decide) (by decide) (by decide),
   C10_capture_once_semantics.2.1 ⟨5, 1, 2, true⟩
      [⟨6, false, true, 1, none, none⟩, ⟨7, true, false, 1, none, some [3]⟩],
   C10_capture_once_semantics.2.2 ⟨0, 0, 0, true⟩ ⟨9, false, true, 1, none, none⟩ (by decide)⟩
